import Mathlib

/-!
# Verification of the chrome-multi-session cookie-isolation engine

Shallow embedding of the session/cookie storage layer (`src/js/storage.js`)
and the background rule synthesizer / Set-Cookie parser (the background
script).  JavaScript strings are modelled as `List Char` (named `Str`), JS
objects used as string- or number-keyed maps are modelled as association
lists in insertion order (JS object iteration order for string keys), and
JS numbers that can be `NaN` are modelled by the inductive type `JSNum`.
Host collaborator functions (`new URL(u).hostname` and `new Date(s)`) are
passed as explicit function parameters; time (`Date.now()/1000`) is passed
as an explicit integer parameter `now` in epoch seconds.
-/

set_option autoImplicit false
set_option synthInstance.maxSize 1024

namespace ChromeMultiSession

/-- JavaScript strings, modelled as lists of characters. -/
abbrev Str := List Char

/-- Embed a Lean string literal as a `Str`. -/
def str (s : String) : Str := s.toList

/-- A JavaScript number that may be `NaN` (integral values only; the code
only ever compares and adds cookie timestamps). -/
inductive JSNum where
  | nan : JSNum
  | num : Int → JSNum
deriving DecidableEq, Repr

/-- JS `+` on numbers: anything plus `NaN` is `NaN`. -/
def JSNum.add : JSNum → JSNum → JSNum
  | .num a, .num b => .num (a + b)
  | _, _ => .nan

/-- JS truthiness of a nullable number (`null`, `NaN` and `0` are falsy). -/
def jsTruthy : Option JSNum → Bool
  | none => false
  | some .nan => false
  | some (.num n) => n != 0

/-- JS `x > now` on a nullable number: `false` when `x` is `null` or `NaN`. -/
def jsGt (x : Option JSNum) (now : Int) : Bool :=
  match x with
  | some (.num a) => a > now
  | _ => false

/-- A parsed cookie record, mirroring the object literal built by
`parseSetCookie` in the background script.  `expirationDate = none` is the
JS `null` (session cookie); `some .nan` is a `NaN` timestamp. -/
structure CookieRecord where
  name : Str
  value : Str
  domain : Str
  path : Str
  secure : Bool
  httpOnly : Bool
  sameSite : Str
  expirationDate : Option JSNum
deriving DecidableEq, Repr

/-- `Storage.domainMatches(requestDomain, cookieDomain)` from
`src/js/storage.js`: falsy (empty) strings never match; a dotted cookie
domain matches the bare domain (`slice(1)`) or any request domain ending
with the dotted string; otherwise exact equality. -/
def domainMatches (requestDomain cookieDomain : Str) : Bool :=
  if requestDomain.isEmpty || cookieDomain.isEmpty then false
  else if ['.'].isPrefixOf cookieDomain then
    requestDomain == cookieDomain.drop 1 || cookieDomain.isSuffixOf requestDomain
  else requestDomain == cookieDomain

/-- The spec's domain-match rule, transcribed from its words: a stored
domain beginning with `.` matches a request domain equal to the suffix
after the dot or ending with the full dotted string; a stored domain
without a leading dot matches only on exact equality; empty request or
stored domains never match. -/
def domainMatchSpec (req stored : Str) : Prop :=
  req ≠ [] ∧ stored ≠ [] ∧
    ((['.'].isPrefixOf stored = true ∧
        (req = stored.drop 1 ∨ stored.isSuffixOf req = true)) ∨
     (['.'].isPrefixOf stored = false ∧ req = stored))

/-- C1: the implementation's domain-match test agrees exactly with the
spec's domain-match rule, rejecting whenever either side is empty. -/
theorem domainMatches_iff_spec (req stored : Str) :
    domainMatches req stored = true ↔ domainMatchSpec req stored := by
  unfold domainMatches domainMatchSpec
  by_cases h1 : req = []
  · subst h1; simp
  by_cases h2 : stored = []
  · subst h2; simp
  have e1 : req.isEmpty = false := by simpa using h1
  have e2 : stored.isEmpty = false := by simpa using h2
  rw [e1, e2]
  cases hp : List.isPrefixOf ['.'] stored <;> simp [hp, h1, h2]

/-! ## Association-list model of JS objects used as maps -/

/-- JS property read `obj[k]`, `undefined` as `none`. -/
def alookup {α β : Type} [BEq α] (k : α) : List (α × β) → Option β
  | [] => none
  | (k', v) :: rest => if k' == k then some v else alookup k rest

/-- JS property write `obj[k] = v`: updates in place when the key exists
(JS objects keep the original insertion position), appends otherwise. -/
def setKey {α β : Type} [BEq α] (k : α) (v : β) : List (α × β) → List (α × β)
  | [] => [(k, v)]
  | (k', v') :: rest => if k' == k then (k, v) :: rest else (k', v') :: setKey k v rest

/-- JS `delete obj[k]`. -/
def eraseKey {α β : Type} [BEq α] (k : α) : List (α × β) → List (α × β)
  | [] => []
  | (k', v) :: rest => if k' == k then rest else (k', v) :: eraseKey k rest

@[simp] theorem alookup_setKey_self {α β : Type} [BEq α] [LawfulBEq α]
    (k : α) (v : β) (l : List (α × β)) : alookup k (setKey k v l) = some v := by
  induction l with
  | nil => simp [setKey, alookup]
  | cons p rest ih =>
    by_cases h : p.1 == k
    · simp [setKey, alookup, h]
    · simp only [setKey, alookup]
      rw [if_neg (by simpa using h), alookup]
      rw [if_neg (by simpa using h)]
      exact ih

/-! ## The persisted storage state (`src/js/storage.js`) -/

/-- A session descriptor; only `id` participates in any algorithm. -/
structure Session where
  id : Str
  name : Str
  color : Str
  icon : Str
deriving DecidableEq, Repr

/-- One entry of the persisted `tabSessions` map. -/
structure TabInfo where
  sessionId : Str
  ruleIds : List Nat
deriving DecidableEq, Repr

/-- `sessionCookies[sessionId]`: cookie domain -> ("name|path" key -> record). -/
abbrev DomainMap := List (Str × List (Str × CookieRecord))

/-- The `chrome.storage.local` contents the storage module manages. -/
structure StorageState where
  sessions : List Session
  tabSessions : List (Nat × TabInfo)
  sessionCookies : List (Str × DomainMap)
  ruleIdCounter : Option Nat
deriving DecidableEq, Repr

/-- `Storage.getNextRuleId`: returns `ruleIdCounter || 1` and stores back
that value plus 100 (reserving a block of 100 ids). -/
def getNextRuleId (st : StorageState) : Nat × StorageState :=
  let nextId := match st.ruleIdCounter with
    | some n => if n = 0 then 1 else n
    | none => 1
  (nextId, { st with ruleIdCounter := some (nextId + 100) })

/-- `Storage.getTabInfo`: the persisted binding, with the default fallback. -/
def getTabInfo (st : StorageState) (tabId : Nat) : TabInfo :=
  (alookup tabId st.tabSessions).getD ⟨str "default", []⟩

/-- `Storage.getTabSession`. -/
def getTabSession (st : StorageState) (tabId : Nat) : Str :=
  (getTabInfo st tabId).sessionId

/-- `Storage.setTabInfo`. -/
def setTabInfo (st : StorageState) (tabId : Nat) (sessionId : Str)
    (ruleIds : List Nat) : StorageState :=
  { st with tabSessions := setKey tabId ⟨sessionId, ruleIds⟩ st.tabSessions }

/-- `Storage.getSessionCookies`: the session's domain map, `{}` if absent. -/
def getSessionCookies (st : StorageState) (sessionId : Str) : DomainMap :=
  (alookup sessionId st.sessionCookies).getD []

/-- `Storage.getSessionCookiesForDomain`: for each stored cookie domain that
matches the request domain, push all bucket values, in iteration order.
Note: no expiration filtering happens here. -/
def getSessionCookiesForDomain (st : StorageState) (sessionId domain : Str) :
    List CookieRecord :=
  (getSessionCookies st sessionId).bind
    (fun p => if domainMatches domain p.1 then p.2.map Prod.snd else [])

/-- `Storage.deleteSession`: refuses `"default"`; otherwise drops the session
from the list, deletes its cookie bucket, and reassigns every persisted tab
binding pointing at it to `"default"` (leaving each binding's `ruleIds`
untouched). -/
def deleteSession (st : StorageState) (sessionId : Str) : Bool × StorageState :=
  if sessionId == str "default" then (false, st)
  else
    (true,
      { st with
        sessions := st.sessions.filter (fun s => s.id != sessionId),
        sessionCookies := eraseKey sessionId st.sessionCookies,
        tabSessions := st.tabSessions.map
          (fun p => if p.2.sessionId == sessionId
                    then (p.1, { p.2 with sessionId := str "default" })
                    else p) })

/-! ## Cookie header construction (background script, buildCookieHeader) -/

/-- The liveness test `!c.expirationDate || c.expirationDate > now` from
`buildCookieHeader` (JS truthiness: `null`, `NaN` and `0` are falsy). -/
def cookieAlive (now : Int) (c : CookieRecord) : Bool :=
  !jsTruthy c.expirationDate || jsGt c.expirationDate now

/-- One serialized pair `name=value`. -/
def serializePair (c : CookieRecord) : Str := c.name ++ '=' :: c.value

/-- JS `Array.prototype.join("; ")`. -/
def joinSemiSpace : List Str → Str
  | [] => []
  | [x] => x
  | x :: y :: xs => x ++ ';' :: ' ' :: joinSemiSpace (y :: xs)

/-- The filtered list `cookies.filter(c => !c.expirationDate ||
c.expirationDate > now)` inside `buildCookieHeader`. -/
def survivors (st : StorageState) (sessionId domain : Str) (now : Int) :
    List CookieRecord :=
  (getSessionCookiesForDomain st sessionId domain).filter (cookieAlive now)

/-- `buildCookieHeader(sessionId, domain)` at call time `now`. -/
def buildCookieHeader (st : StorageState) (sessionId domain : Str) (now : Int) : Str :=
  joinSemiSpace ((survivors st sessionId domain now).map serializePair)

/-! ## C2: the domain query and expired records -/

/-- A record whose expiration (epoch second 1) is long past. -/
def expiredCookie : CookieRecord :=
  { name := str "sid", value := str "old", domain := str "a.com", path := str "/",
    secure := false, httpOnly := false, sameSite := str "Lax",
    expirationDate := some (.num 1) }

/-- A store holding only `expiredCookie` under session `"s"`. -/
def storeWithExpired : StorageState :=
  { sessions := [], tabSessions := [],
    sessionCookies := [(str "s", [(str "a.com", [(str "sid|/", expiredCookie)])])],
    ruleIdCounter := some 1 }

/-- C2 counterexample: at call time 100 the stored record's expiration (1)
is in the past, yet `getSessionCookiesForDomain` still returns it — the
function performs no expiry filtering. -/
theorem getSessionCookiesForDomain_returns_expired :
    getSessionCookiesForDomain storeWithExpired (str "s") (str "a.com")
      = [expiredCookie]
    ∧ expiredCookie.expirationDate = some (.num 1)
    ∧ (1 : Int) < 100 := by
  refine ⟨by decide, rfl, by decide⟩

/-- C2 (amended): `getSessionCookiesForDomain` returns exactly the records
sitting in buckets whose stored domain matches the request domain, with no
expiry filtering; the expiry exclusion holds one level up, in
`buildCookieHeader`'s survivor set, which keeps exactly the matching
records alive at call time. -/
theorem getSessionCookiesForDomain_characterization
    (st : StorageState) (sessionId domain : Str) (now : Int) (c : CookieRecord) :
    (c ∈ getSessionCookiesForDomain st sessionId domain ↔
      ∃ p ∈ getSessionCookies st sessionId,
        domainMatches domain p.1 = true ∧ ∃ k, (k, c) ∈ p.2)
    ∧ (c ∈ survivors st sessionId domain now ↔
        c ∈ getSessionCookiesForDomain st sessionId domain
          ∧ cookieAlive now c = true) := by
  constructor
  · unfold getSessionCookiesForDomain
    rw [List.mem_bind]
    constructor
    · rintro ⟨p, hp, hc⟩
      by_cases hd : domainMatches domain p.1 = true
      · rw [if_pos hd] at hc
        obtain ⟨a, ha, hae⟩ := List.mem_map.mp hc
        refine ⟨p, hp, hd, a.1, ?_⟩
        rw [← hae]
        simpa using ha
      · rw [if_neg hd] at hc
        exact absurd hc (List.not_mem_nil c)
    · rintro ⟨p, hp, hd, k, hk⟩
      exact ⟨p, hp, by rw [if_pos hd]; exact List.mem_map.mpr ⟨(k, c), hk, rfl⟩⟩
  · unfold survivors
    exact List.mem_filter

/-! ## C9: monotonic rule-id allocation -/

/-- The id returned by the `(n+1)`-st sequential `getNextRuleId` call. -/
def nthRuleId (st : StorageState) : Nat → Nat
  | 0 => (getNextRuleId st).1
  | n + 1 => nthRuleId (getNextRuleId st).2 n

theorem nthRuleId_succ (st : StorageState) (n : Nat) :
    nthRuleId st (n + 1) = nthRuleId st n + 100 := by
  induction n generalizing st with
  | zero =>
    show (getNextRuleId (getNextRuleId st).2).1 = (getNextRuleId st).1 + 100
    unfold getNextRuleId
    rcases st.ruleIdCounter with _ | m
    · simp
    · by_cases hm : m = 0 <;> simp [hm]
  | succ k ih =>
    show nthRuleId (getNextRuleId st).2 (k + 1)
        = nthRuleId (getNextRuleId st).2 k + 100
    exact ih (getNextRuleId st).2

theorem nthRuleId_le_of_lt (st : StorageState) :
    ∀ i j : Nat, i < j → nthRuleId st i + 100 ≤ nthRuleId st j := by
  intro i j hij
  induction j with
  | zero => omega
  | succ k ih =>
    rw [nthRuleId_succ]
    rcases Nat.lt_succ_iff_lt_or_eq.mp hij with h | h
    · have := ih h; omega
    · subst h; omega

/-- C9: a call with a live counter value `n > 0` returns `n` and stores back
`n + 100`; across any run of sequential calls the returned base ids of two
distinct calls differ by at least 100 and the reserved blocks of 100
consecutive identifiers are disjoint. -/
theorem getNextRuleId_monotonic :
    (∀ (st : StorageState) (n : Nat), st.ruleIdCounter = some n → 0 < n →
      (getNextRuleId st).1 = n
        ∧ (getNextRuleId st).2.ruleIdCounter = some (n + 100))
    ∧ (∀ (st : StorageState) (i j : Nat), i < j →
      nthRuleId st i + 100 ≤ nthRuleId st j
        ∧ ∀ x : Nat, ¬(nthRuleId st i ≤ x ∧ x < nthRuleId st i + 100
            ∧ nthRuleId st j ≤ x ∧ x < nthRuleId st j + 100)) := by
  constructor
  · intro st n hst hn
    unfold getNextRuleId
    rw [hst]
    simp [Nat.pos_iff_ne_zero.mp hn]
  · intro st i j hij
    have h := nthRuleId_le_of_lt st i j hij
    exact ⟨h, fun x => by omega⟩

/-- A concrete state whose counter holds 5. -/
def counterState : StorageState :=
  { sessions := [], tabSessions := [], sessionCookies := [],
    ruleIdCounter := some 5 }

/-- Witness for C9 at the concrete state `counterState`. -/
theorem getNextRuleId_monotonic_witness :
    (counterState.ruleIdCounter = some 5 ∧ 0 < 5
      ∧ (getNextRuleId counterState).1 = 5)
    ∧ (0 < 1 ∧ nthRuleId counterState 0 + 100 ≤ nthRuleId counterState 1) :=
  ⟨⟨rfl, by decide,
    (getNextRuleId_monotonic.1 counterState 5 rfl (by decide)).1⟩,
   ⟨by decide,
    (getNextRuleId_monotonic.2 counterState 0 1 (by decide)).1⟩⟩

/-! ## Set-Cookie parsing (background script, parseSetCookie) -/

/-- JS `String.prototype.split(";")`: empty pieces are kept, the empty
string splits to `[""]`. -/
def splitOnChar (c : Char) : Str → List Str
  | [] => [[]]
  | x :: xs =>
    if x = c then [] :: splitOnChar c xs
    else
      match splitOnChar c xs with
      | [] => [[x]]
      | y :: ys => (x :: y) :: ys

/-- JS `String.prototype.trim()`. -/
def trimWs (s : Str) : Str :=
  ((s.dropWhile Char.isWhitespace).reverse.dropWhile Char.isWhitespace).reverse

/-- JS `String.prototype.indexOf(c)`, `-1` modelled as `none`. -/
def jsIndexOf (c : Char) : Str → Option Nat
  | [] => none
  | x :: xs => if x = c then some 0 else (jsIndexOf c xs).map (· + 1)

/-- JS `String.prototype.toLowerCase()` (ASCII attribute names only). -/
def toLowerStr (s : Str) : Str := s.map Char.toLower

/-- Value of a digit string read in base 10. -/
def digitsToNat (ds : Str) : Nat :=
  ds.foldl (fun n d => n * 10 + (d.toNat - '0'.toNat)) 0

/-- JS `parseInt` on a cookie attribute value: skip leading whitespace,
an optional sign, then a maximal decimal-digit prefix; `NaN` when no digit
follows. -/
def jsParseInt (s : Str) : JSNum :=
  let t := s.dropWhile Char.isWhitespace
  match t with
  | '-' :: rest =>
    let ds := rest.takeWhile Char.isDigit
    if ds.isEmpty then .nan else .num (-(digitsToNat ds : Int))
  | '+' :: rest =>
    let ds := rest.takeWhile Char.isDigit
    if ds.isEmpty then .nan else .num (digitsToNat ds)
  | _ =>
    let ds := t.takeWhile Char.isDigit
    if ds.isEmpty then .nan else .num (digitsToNat ds)

/-- One iteration of the attribute `switch` in `parseSetCookie`.  `pd`
models the host collaborator `new Date(v).getTime()/1000` in epoch seconds
(`JSNum.nan` for an unparsable date — `new Date` does not throw, it yields
an invalid date whose time is `NaN`); `now` models `Date.now()/1000`. -/
def applyAttr (pd : Str → JSNum) (now : Int) (cookie : CookieRecord)
    (attr : Str) : CookieRecord :=
  let eqIdx := jsIndexOf '=' attr
  let attrName :=
    match eqIdx with
    | some k => if 0 < k then toLowerStr (attr.take k) else toLowerStr attr
    | none => toLowerStr attr
  let attrValue :=
    match eqIdx with
    | some k => if 0 < k then attr.drop (k + 1) else []
    | none => []
  if attrName = str "domain" then
    { cookie with
      domain := if ['.'].isPrefixOf attrValue then attrValue else '.' :: attrValue }
  else if attrName = str "path" then
    { cookie with path := if attrValue.isEmpty then str "/" else attrValue }
  else if attrName = str "expires" then
    { cookie with expirationDate := some (pd attrValue) }
  else if attrName = str "max-age" then
    { cookie with expirationDate := some (JSNum.add (.num now) (jsParseInt attrValue)) }
  else if attrName = str "secure" then { cookie with secure := true }
  else if attrName = str "httponly" then { cookie with httpOnly := true }
  else if attrName = str "samesite" then
    { cookie with sameSite := if attrValue.isEmpty then str "Lax" else attrValue }
  else cookie

/-- `parseSetCookie(header, url)` at call time `now`.  `pu` models the host
collaborator `new URL(u).hostname` (`none` when the URL constructor
throws), `pd` the date collaborator.  Split on `;`, trim the parts; the
first part splits into name/value at its first `=` (no `=` gives an empty
name and the whole part as value, matching `substring` on index `-1`);
`null` is returned exactly when the URL does not parse; the remaining
parts are folded over the attribute switch. -/
def parseSetCookie (pu : Str → Option Str) (pd : Str → JSNum) (now : Int)
    (header url : Str) : Option CookieRecord :=
  let parts := (splitOnChar ';' header).map trimWs
  let nameValue := parts.headD []
  let attributes := parts.tail
  let eqIndex := jsIndexOf '=' nameValue
  let name := match eqIndex with | some k => nameValue.take k | none => []
  let value := match eqIndex with | some k => nameValue.drop (k + 1) | none => nameValue
  match pu url with
  | none => none
  | some domain =>
    some (attributes.foldl (applyAttr pd now)
      { name := name, value := value, domain := domain, path := str "/",
        secure := false, httpOnly := false, sameSite := str "Lax",
        expirationDate := none })

theorem applyAttr_name (pd : Str → JSNum) (now : Int) (c : CookieRecord)
    (attr : Str) : (applyAttr pd now c attr).name = c.name := by
  unfold applyAttr
  dsimp only
  split_ifs <;> rfl

theorem applyAttr_value (pd : Str → JSNum) (now : Int) (c : CookieRecord)
    (attr : Str) : (applyAttr pd now c attr).value = c.value := by
  unfold applyAttr
  dsimp only
  split_ifs <;> rfl

theorem foldl_applyAttr_name (pd : Str → JSNum) (now : Int) (attrs : List Str)
    (c : CookieRecord) : (attrs.foldl (applyAttr pd now) c).name = c.name := by
  induction attrs generalizing c with
  | nil => rfl
  | cons a rest ih => rw [List.foldl_cons, ih, applyAttr_name]

theorem foldl_applyAttr_value (pd : Str → JSNum) (now : Int) (attrs : List Str)
    (c : CookieRecord) : (attrs.foldl (applyAttr pd now) c).value = c.value := by
  induction attrs generalizing c with
  | nil => rfl
  | cons a rest ih => rw [List.foldl_cons, ih, applyAttr_value]

theorem jsIndexOf_eq_none {c : Char} {s : Str} (h : c ∉ s) :
    jsIndexOf c s = none := by
  induction s with
  | nil => rfl
  | cons x xs ih =>
    rw [jsIndexOf, if_neg (fun hx => h (by rw [← hx]; exact List.mem_cons_self x xs)),
      ih (fun hm => h (List.mem_cons_of_mem x hm))]
    rfl

/-! ## C10: headers whose first segment has no `=` -/

/-- C10: when the first `;`-delimited (trimmed) segment of the header
contains no `=`, `parseSetCookie` still succeeds (for any URL that yields
a hostname), producing a record with empty name and the whole first
segment as value; the remaining segments are folded over the attribute
switch as usual. -/
theorem parseSetCookie_no_eq_in_first_segment
    (pu : Str → Option Str) (pd : Str → JSNum) (now : Int)
    (header url host : Str) (hu : pu url = some host)
    (hne : '=' ∉ ((splitOnChar ';' header).map trimWs).headD []) :
    ∃ r, parseSetCookie pu pd now header url = some r
      ∧ r.name = [] ∧ r.value = ((splitOnChar ';' header).map trimWs).headD [] := by
  have h : parseSetCookie pu pd now header url
      = some ((((splitOnChar ';' header).map trimWs).tail).foldl (applyAttr pd now)
          { name := [], value := ((splitOnChar ';' header).map trimWs).headD [],
            domain := host, path := str "/", secure := false, httpOnly := false,
            sameSite := str "Lax", expirationDate := none }) := by
    simp only [parseSetCookie, hu, jsIndexOf_eq_none hne]
  exact ⟨_, h, foldl_applyAttr_name _ _ _ _, foldl_applyAttr_value _ _ _ _⟩

/-- A concrete URL-hostname collaborator for witnesses. -/
def puEx : Str → Option Str := fun u =>
  if u == str "https://example.com/" then some (str "example.com") else none

/-- A concrete date collaborator: resolves one fixed date string (to epoch
second 999), `NaN` on everything else. -/
def pdEx : Str → JSNum := fun s =>
  if s == str "Thu, 01 Jan 1970 00:16:39 GMT" then .num 999 else .nan

/-- Witness for C10 on the header `"abc; Path=/x; Secure"`. -/
theorem parseSetCookie_no_eq_in_first_segment_witness :
    puEx (str "https://example.com/") = some (str "example.com")
    ∧ '=' ∉ ((splitOnChar ';' (str "abc; Path=/x; Secure")).map trimWs).headD []
    ∧ ∃ r, parseSetCookie puEx pdEx 0 (str "abc; Path=/x; Secure")
          (str "https://example.com/") = some r
        ∧ r.name = []
        ∧ r.value = ((splitOnChar ';' (str "abc; Path=/x; Secure")).map trimWs).headD [] :=
  ⟨by decide, by decide,
   parseSetCookie_no_eq_in_first_segment puEx pdEx 0 (str "abc; Path=/x; Secure")
     (str "https://example.com/") (str "example.com") (by decide) (by decide)⟩

/-! ## C5: Max-Age versus Expires precedence -/

/-- C5 counterexample: in a header listing `Expires` after `Max-Age`, the
later-processed `Expires` wins, so `expirationDate` is the parsed date
(999), not call time plus Max-Age (0 + 60) — precedence is not
order-independent. -/
theorem parseSetCookie_expires_after_maxage :
    (parseSetCookie puEx pdEx 0
        (str "token=zzz; Max-Age=60; Expires=Thu, 01 Jan 1970 00:16:39 GMT")
        (str "https://example.com/")).map CookieRecord.expirationDate
      = some (some (.num 999))
    ∧ (999 : Int) ≠ 0 + 60 :=
  ⟨by decide, by decide⟩

/-- C5 (amended): attribute processing is last-one-wins, so `Max-Age`
overrides `Expires` exactly when it appears after it; this holds for every
call time `T` and every behaviour of the host date parser `pd`.  The
spec's concrete example (no `Expires` at all) also yields `T + 60` and a
dotted domain. -/
theorem parseSetCookie_maxage_last_wins
    (pu : Str → Option Str) (pd : Str → JSNum) (T : Int) (url host : Str)
    (hu : pu url = some host) :
    (∃ r, parseSetCookie pu pd T
        (str "token=zzz; Domain=example.com; Expires=Sun, 06 Nov 1994 08:49:37 GMT; Max-Age=60")
        url = some r
      ∧ r.expirationDate = some (.num (T + 60))
      ∧ r.domain = str ".example.com")
    ∧ (∃ r, parseSetCookie pu pd T
        (str "token=zzz; Domain=example.com; Max-Age=60") url = some r
      ∧ r.expirationDate = some (.num (T + 60))
      ∧ r.domain = str ".example.com") := by
  constructor
  · refine ⟨{ name := str "token", value := str "zzz", domain := str ".example.com",
              path := str "/", secure := false, httpOnly := false,
              sameSite := str "Lax", expirationDate := some (.num (T + 60)) },
            ?_, rfl, rfl⟩
    simp only [parseSetCookie, hu]
    rfl
  · refine ⟨{ name := str "token", value := str "zzz", domain := str ".example.com",
              path := str "/", secure := false, httpOnly := false,
              sameSite := str "Lax", expirationDate := some (.num (T + 60)) },
            ?_, rfl, rfl⟩
    simp only [parseSetCookie, hu]
    rfl

/-- Witness for C5's amended theorem at `T = 0` with the concrete
collaborators. -/
theorem parseSetCookie_maxage_last_wins_witness :
    puEx (str "https://example.com/") = some (str "example.com")
    ∧ (∃ r, parseSetCookie puEx pdEx 0
        (str "token=zzz; Domain=example.com; Expires=Sun, 06 Nov 1994 08:49:37 GMT; Max-Age=60")
        (str "https://example.com/") = some r
      ∧ r.expirationDate = some (.num (0 + 60))
      ∧ r.domain = str ".example.com") :=
  ⟨by decide,
   (parseSetCookie_maxage_last_wins puEx pdEx 0 (str "https://example.com/")
      (str "example.com") (by decide)).1⟩

/-! ## C6: unparsable expires / max-age -/

/-- C6 counterexample: an unparsable `Max-Age` is not ignored — the record
comes back with `expirationDate = NaN`, not the `null` (unset) the claim
demands. -/
theorem parseSetCookie_unparsable_maxage_not_null :
    ∃ r, parseSetCookie puEx pdEx 0 (str "a=b; Max-Age=oops")
        (str "https://example.com/") = some r
      ∧ r.expirationDate = some JSNum.nan
      ∧ some JSNum.nan ≠ (none : Option JSNum) :=
  ⟨{ name := str "a", value := str "b", domain := str "example.com",
     path := str "/", secure := false, httpOnly := false,
     sameSite := str "Lax", expirationDate := some JSNum.nan },
   by decide, rfl, by decide⟩

/-- C6 (amended): on an unparsable `expires` (date collaborator returns
`NaN`) or `max-age` (non-numeric), `parseSetCookie` still succeeds and
every other attribute is parsed into the record; but the offending
attribute sets `expirationDate` to `NaN` rather than leaving it `null`.
A `NaN` expiration is treated exactly like `null` by the liveness filter
(`cookieAlive` is true at every call time), i.e. the record behaves as a
session cookie downstream. -/
theorem parseSetCookie_malformed_expiry
    (pu : Str → Option Str) (pd : Str → JSNum) (T now2 : Int) (url host : Str)
    (hu : pu url = some host) (hpd : pd (str "garbage") = JSNum.nan) :
    (∃ r, parseSetCookie pu pd T (str "sid=abc; Expires=garbage; Path=/p; Secure") url
        = some r
      ∧ r = { name := str "sid", value := str "abc", domain := host,
              path := str "/p", secure := true, httpOnly := false,
              sameSite := str "Lax", expirationDate := some JSNum.nan }
      ∧ cookieAlive now2 r = true)
    ∧ (∃ r, parseSetCookie pu pd T (str "sid=abc; Max-Age=oops; Path=/p") url
        = some r
      ∧ r.expirationDate = some JSNum.nan ∧ r.path = str "/p"
      ∧ cookieAlive now2 r = true) := by
  constructor
  · have h1 : parseSetCookie pu pd T
        (str "sid=abc; Expires=garbage; Path=/p; Secure") url
        = some { name := str "sid", value := str "abc", domain := host,
                 path := str "/p", secure := true, httpOnly := false,
                 sameSite := str "Lax", expirationDate := some (pd (str "garbage")) } := by
      simp only [parseSetCookie, hu]
      rfl
    rw [hpd] at h1
    exact ⟨_, h1, rfl, rfl⟩
  · have h2 : parseSetCookie pu pd T (str "sid=abc; Max-Age=oops; Path=/p") url
        = some { name := str "sid", value := str "abc", domain := host,
                 path := str "/p", secure := false, httpOnly := false,
                 sameSite := str "Lax", expirationDate := some JSNum.nan } := by
      simp only [parseSetCookie, hu]
      rfl
    exact ⟨_, h2, rfl, rfl, rfl⟩

/-- Witness for C6's amended theorem with the concrete collaborators. -/
theorem parseSetCookie_malformed_expiry_witness :
    puEx (str "https://example.com/") = some (str "example.com")
    ∧ pdEx (str "garbage") = JSNum.nan
    ∧ (∃ r, parseSetCookie puEx pdEx 0
          (str "sid=abc; Expires=garbage; Path=/p; Secure")
          (str "https://example.com/") = some r
        ∧ r = { name := str "sid", value := str "abc", domain := str "example.com",
                path := str "/p", secure := true, httpOnly := false,
                sameSite := str "Lax", expirationDate := some JSNum.nan }
        ∧ cookieAlive 7 r = true) :=
  ⟨by decide, by decide,
   (parseSetCookie_malformed_expiry puEx pdEx 0 7 (str "https://example.com/")
      (str "example.com") (by decide) (by decide)).1⟩

/-! ## Declarative rewrite rules and the background world -/

/-- One header operation of a `modifyHeaders` action. -/
structure HeaderOp where
  header : Str
  operation : Str
  value : Option Str
deriving DecidableEq, Repr

/-- A rule's `action` object. -/
structure RuleAction where
  type : Str
  requestHeaders : List HeaderOp
  responseHeaders : List HeaderOp
deriving DecidableEq, Repr

/-- A rule's `condition` object. -/
structure RuleCondition where
  tabIds : List Nat
  resourceTypes : List Str
deriving DecidableEq, Repr

/-- A declarativeNetRequest session rule. -/
structure Rule where
  id : Nat
  priority : Nat
  action : RuleAction
  condition : RuleCondition
deriving DecidableEq, Repr

/-- The resource-type list both rules carry. -/
def allResourceTypes : List Str :=
  [str "main_frame", str "sub_frame", str "xmlhttprequest", str "script",
   str "image", str "font", str "stylesheet", str "media", str "websocket",
   str "other"]

/-- Rule 1 of `createRulesForTab`: remove any existing request `Cookie`
header, and additionally set our own when the built header is a truthy
(nonempty) string. -/
def cookieRequestRule (tabId baseRuleId : Nat) (cookieHeader : Str) : Rule :=
  { id := baseRuleId, priority := 1,
    action :=
      { type := str "modifyHeaders",
        requestHeaders :=
          { header := str "Cookie", operation := str "remove", value := none } ::
            (if cookieHeader.isEmpty then []
             else [{ header := str "Cookie", operation := str "set",
                     value := some cookieHeader }]),
        responseHeaders := [] },
    condition := { tabIds := [tabId], resourceTypes := allResourceTypes } }

/-- Rule 2 of `createRulesForTab`: strip every response `Set-Cookie`. -/
def setCookieStripRule (tabId ruleId : Nat) : Rule :=
  { id := ruleId, priority := 1,
    action := { type := str "modifyHeaders", requestHeaders := [],
                responseHeaders := [{ header := str "Set-Cookie",
                                      operation := str "remove", value := none }] },
    condition := { tabIds := [tabId], resourceTypes := allResourceTypes } }

/-- `createRulesForTab(tabId, sessionId, url)`: no rules for the default
session or an unparsable URL; otherwise builds the cookie header, draws a
fresh rule-id block (mutating the persisted counter) and emits the two
rules with ids `base` and `base + 1`. -/
def createRulesForTab (st : StorageState) (tabId : Nat) (sessionId url : Str)
    (pu : Str → Option Str) (now : Int) : List Rule × StorageState :=
  if sessionId == str "default" then ([], st)
  else
    match pu url with
    | none => ([], st)
    | some domain =>
      let cookieHeader := buildCookieHeader st sessionId domain now
      let p := getNextRuleId st
      ([cookieRequestRule tabId p.1 cookieHeader,
        setCookieStripRule tabId (p.1 + 1)], p.2)

/-- One entry of the in-memory `tabCache` map (`domains` is a JS `Set`,
modelled as a list). -/
structure TabCacheEntry where
  sessionId : Str
  ruleIds : List Nat
  domains : List Str
deriving DecidableEq, Repr

/-- The mutable world the background script acts on: the persisted storage,
the in-memory tab cache, and the rules currently installed in the host
engine. -/
structure World where
  store : StorageState
  tabCache : List (Nat × TabCacheEntry)
  engine : List Rule
deriving DecidableEq, Repr

/-- The cache entry with the fallback used by `applyRulesForTab`:
`tabCache.get(tabId) || { sessionId: 'default', ruleIds: [], domains: {} }`. -/
def tabEntry (w : World) (tabId : Nat) : TabCacheEntry :=
  (alookup tabId w.tabCache).getD ⟨str "default", [], []⟩

/-- `applyRulesForTab(tabId, sessionId, url)`.  First removes the tab's
cached rule ids from the engine (absent ids are no-ops, the thrown error
is caught); for the default session it clears the binding and returns.
Otherwise it builds the two rules, tries to add them — `addFails = true`
models `updateSessionRules({ addRules })` throwing (e.g. the global rule
cap), which the code catches and merely logs — then unconditionally writes
the new rule ids into the cache and the persisted binding. -/
def applyRulesForTab (w : World) (tabId : Nat) (sessionId url : Str)
    (pu : Str → Option Str) (now : Int) (addFails : Bool) : World :=
  let tabInfo := tabEntry w tabId
  let engine1 := w.engine.filter (fun r => !tabInfo.ruleIds.contains r.id)
  if sessionId == str "default" then
    { store := setTabInfo w.store tabId sessionId [],
      tabCache := setKey tabId ⟨str "default", [], []⟩ w.tabCache,
      engine := engine1 }
  else
    let rs := createRulesForTab w.store tabId sessionId url pu now
    let ruleIds := rs.1.map Rule.id
    let engine2 :=
      if 0 < rs.1.length then (if addFails then engine1 else engine1 ++ rs.1)
      else engine1
    let domain := (pu url).getD []
    { store := setTabInfo rs.2 tabId sessionId ruleIds,
      tabCache := setKey tabId ⟨sessionId, ruleIds, [domain]⟩ w.tabCache,
      engine := engine2 }

/-- The `deleteSession` case of `handleMessage`: delete through the storage
layer, then flip matching cache entries to `"default"` (their `ruleIds`
stay as they were).  Neither the engine nor any tab's installed rules are
touched, and `applyRulesForTab` is not called. -/
def handleDeleteSession (w : World) (sessionId : Str) : World :=
  { store := (deleteSession w.store sessionId).2,
    tabCache := w.tabCache.map (fun p =>
      if p.2.sessionId == sessionId
      then (p.1, { p.2 with sessionId := str "default" })
      else p),
    engine := w.engine }

/-- The `getTabSession` case of `handleMessage`: the cached sessionId when
present and truthy, else the persisted one. -/
def getTabSessionMsg (w : World) (tabId : Nat) : Str :=
  match alookup tabId w.tabCache with
  | some e => if e.sessionId.isEmpty then getTabSession w.store tabId else e.sessionId
  | none => getTabSession w.store tabId

/-! ## C3: rejected installs leave phantom rule ids -/

/-- A hostname collaborator for the concrete rule scenarios. -/
def puA : Str → Option Str := fun u =>
  if u == str "https://a.com/" then some (str "a.com") else none

/-- A world in which tab 7 is bound to session `"work"` with rules 5 and 6
installed, and the rule-id counter stands at 11. -/
def worldBeforeReject : World :=
  { store := { sessions := [], tabSessions := [(7, ⟨str "work", [5, 6]⟩)],
               sessionCookies := [], ruleIdCounter := some 11 },
    tabCache := [(7, ⟨str "work", [5, 6], [str "a.com"]⟩)],
    engine := [cookieRequestRule 7 5 (str "x=1"), setCookieStripRule 7 6] }

/-- C3, evaluated at the failing input: the engine rejects the add, yet
`applyRulesForTab` records the freshly allocated ids [11, 12] in the cache
entry and the persisted binding while the engine ends up holding no rules
at all — the binding names rule ids that do not exist, instead of keeping
the previous set [5, 6] or being cleared to []. -/
theorem applyRulesForTab_records_phantom_ids :
    (tabEntry (applyRulesForTab worldBeforeReject 7 (str "work")
        (str "https://a.com/") puA 0 true) 7).ruleIds = [11, 12]
    ∧ (getTabInfo (applyRulesForTab worldBeforeReject 7 (str "work")
        (str "https://a.com/") puA 0 true).store 7).ruleIds = [11, 12]
    ∧ (applyRulesForTab worldBeforeReject 7 (str "work")
        (str "https://a.com/") puA 0 true).engine = []
    ∧ [11, 12] ≠ ([5, 6] : List Nat) ∧ [11, 12] ≠ ([] : List Nat) :=
  ⟨by decide, by decide, by decide, by decide, by decide⟩

/-! ## C4: session deletion does not uninstall rules -/

/-- A live (session) cookie stored under session `"work"`. -/
def workCookie : CookieRecord :=
  { name := str "t", value := str "1", domain := str "a.com", path := str "/",
    secure := false, httpOnly := false, sameSite := str "Lax",
    expirationDate := none }

/-- A world with sessions `default` and `work`, tab 7 bound to `work` with
rules 5 and 6 installed, and one `work` cookie stored. -/
def worldBeforeDelete : World :=
  { store := { sessions :=
                 [⟨str "default", str "Default", str "#808080", str "fingerprint"⟩,
                  ⟨str "work", str "Work", str "#f9a825", str "briefcase"⟩],
               tabSessions := [(7, ⟨str "work", [5, 6]⟩)],
               sessionCookies := [(str "work", [(str "a.com", [(str "t|/", workCookie)])])],
               ruleIdCounter := some 11 },
    tabCache := [(7, ⟨str "work", [5, 6], [str "a.com"]⟩)],
    engine := [cookieRequestRule 7 5 (str "t=1"), setCookieStripRule 7 6] }

/-- C4, evaluated at the failing input: deleting `"work"` reassigns tab 7's
cache and persisted binding to `"default"`, purges the session's cookies,
and `getTabSession` afterwards answers `"default"` — but the tab is not
left with zero installed rewrite rules: both bindings keep rule ids [5, 6]
and both rules remain installed in the engine. -/
theorem deleteSession_leaves_rules_installed :
    getTabSessionMsg (handleDeleteSession worldBeforeDelete (str "work")) 7
      = str "default"
    ∧ (getTabInfo (handleDeleteSession worldBeforeDelete (str "work")).store 7).sessionId
      = str "default"
    ∧ alookup (str "work")
        (handleDeleteSession worldBeforeDelete (str "work")).store.sessionCookies
      = none
    ∧ (tabEntry (handleDeleteSession worldBeforeDelete (str "work")) 7).ruleIds = [5, 6]
    ∧ (getTabInfo (handleDeleteSession worldBeforeDelete (str "work")).store 7).ruleIds
      = [5, 6]
    ∧ (handleDeleteSession worldBeforeDelete (str "work")).engine
      = [cookieRequestRule 7 5 (str "t=1"), setCookieStripRule 7 6]
    ∧ [5, 6] ≠ ([] : List Nat) :=
  ⟨by decide, by decide, by decide, by decide, by decide, by decide, by decide⟩

/-! ## C8: exactly two rules per isolated tab, idempotent reinstall -/

/-- The engine rules scoped to a tab. -/
def tabRules (engine : List Rule) (tabId : Nat) : List Rule :=
  engine.filter (fun r => r.condition.tabIds.contains tabId)

/-- A rule with its id forgotten. -/
def ruleContent (r : Rule) : Nat × RuleAction × RuleCondition :=
  (r.priority, r.action, r.condition)

theorem buildCookieHeader_congr (st1 st2 : StorageState)
    (h : st1.sessionCookies = st2.sessionCookies) (sess dom : Str) (now : Int) :
    buildCookieHeader st1 sess dom now = buildCookieHeader st2 sess dom now := by
  unfold buildCookieHeader survivors getSessionCookiesForDomain getSessionCookies
  rw [h]

/-- Closed form of a (successful) non-default install. -/
theorem applyRulesForTab_eq (w : World) (tabId : Nat) (sessionId url host : Str)
    (pu : Str → Option Str) (now : Int)
    (hs : (sessionId == str "default") = false) (hu : pu url = some host) :
    applyRulesForTab w tabId sessionId url pu now false =
      { store := setTabInfo (getNextRuleId w.store).2 tabId sessionId
          [(getNextRuleId w.store).1, (getNextRuleId w.store).1 + 1],
        tabCache := setKey tabId
          ⟨sessionId,
           [(getNextRuleId w.store).1, (getNextRuleId w.store).1 + 1], [host]⟩
          w.tabCache,
        engine := w.engine.filter (fun r => !(tabEntry w tabId).ruleIds.contains r.id)
          ++ [cookieRequestRule tabId (getNextRuleId w.store).1
                (buildCookieHeader w.store sessionId host now),
              setCookieStripRule tabId ((getNextRuleId w.store).1 + 1)] } := by
  unfold applyRulesForTab createRulesForTab
  simp only [hs, hu, Bool.false_eq_true, if_false, List.map_cons, List.map_nil,
    List.length_cons, List.length_nil, Option.getD_some]
  rfl

theorem tabRules_append (l1 l2 : List Rule) (tabId : Nat) :
    tabRules (l1 ++ l2) tabId = tabRules l1 tabId ++ tabRules l2 tabId :=
  List.filter_append ..

theorem tabRules_removed_nil (w : World) (tabId : Nat)
    (hcons : ∀ r ∈ w.engine, r.condition.tabIds.contains tabId = true →
      r.id ∈ (tabEntry w tabId).ruleIds) :
    tabRules (w.engine.filter (fun r => !(tabEntry w tabId).ruleIds.contains r.id))
      tabId = [] := by
  refine List.filter_eq_nil_iff.mpr ?_
  intro r hr hc
  obtain ⟨hrw, hnc⟩ := List.mem_filter.mp hr
  have hmem : r.id ∈ (tabEntry w tabId).ruleIds := hcons r hrw hc
  have hnot : r.id ∉ (tabEntry w tabId).ruleIds := by simpa using hnc
  exact hnot hmem

theorem tabRules_pair (tabId b b2 : Nat) (h : Str) :
    tabRules [cookieRequestRule tabId b h, setCookieStripRule tabId b2] tabId
      = [cookieRequestRule tabId b h, setCookieStripRule tabId b2] := by
  simp [tabRules, cookieRequestRule, setCookieStripRule]

/-- What one successful install does: the cache binding holds the fresh id
pair, the engine's rules for the tab are exactly the two new rules, and the
cookie store is untouched. -/
theorem install_step (w : World) (tabId : Nat) (sessionId url host : Str)
    (pu : Str → Option Str) (now : Int)
    (hs : (sessionId == str "default") = false) (hu : pu url = some host)
    (hcons : ∀ r ∈ w.engine, r.condition.tabIds.contains tabId = true →
      r.id ∈ (tabEntry w tabId).ruleIds) :
    tabEntry (applyRulesForTab w tabId sessionId url pu now false) tabId
      = ⟨sessionId,
         [(getNextRuleId w.store).1, (getNextRuleId w.store).1 + 1], [host]⟩
    ∧ tabRules (applyRulesForTab w tabId sessionId url pu now false).engine tabId
      = [cookieRequestRule tabId (getNextRuleId w.store).1
           (buildCookieHeader w.store sessionId host now),
         setCookieStripRule tabId ((getNextRuleId w.store).1 + 1)]
    ∧ (applyRulesForTab w tabId sessionId url pu now false).store.sessionCookies
      = w.store.sessionCookies := by
  rw [applyRulesForTab_eq w tabId sessionId url host pu now hs hu]
  refine ⟨?_, ?_, rfl⟩
  · unfold tabEntry
    rw [alookup_setKey_self]
    rfl
  · rw [tabRules_append, tabRules_removed_nil w tabId hcons, tabRules_pair,
      List.nil_append]

/-- C8: a successful install for a non-default session on a parsable URL
leaves the tab bound to exactly 2 rule ids, with the engine's rules for
that tab exactly the bound ones (old ids removed); repeating the install
with identical inputs and no intervening cookie change again yields
exactly 2, and the two rules have the same content as before, under new
ids.  The hypothesis `hcons` is the standing invariant that the engine's
rules for the tab are among the binding's recorded ids. -/
theorem applyRulesForTab_idempotent_two_rules
    (w w1 w2 : World) (tabId : Nat) (sessionId url host : Str)
    (pu : Str → Option Str) (now : Int)
    (hs : (sessionId == str "default") = false)
    (hu : pu url = some host)
    (hcons : ∀ r ∈ w.engine, r.condition.tabIds.contains tabId = true →
      r.id ∈ (tabEntry w tabId).ruleIds)
    (hw1 : w1 = applyRulesForTab w tabId sessionId url pu now false)
    (hw2 : w2 = applyRulesForTab w1 tabId sessionId url pu now false) :
    (tabEntry w1 tabId).ruleIds.length = 2
    ∧ (tabRules w1.engine tabId).map Rule.id = (tabEntry w1 tabId).ruleIds
    ∧ (tabEntry w2 tabId).ruleIds.length = 2
    ∧ (tabRules w2.engine tabId).map Rule.id = (tabEntry w2 tabId).ruleIds
    ∧ (tabRules w2.engine tabId).map ruleContent
      = (tabRules w1.engine tabId).map ruleContent := by
  subst hw1
  subst hw2
  obtain ⟨h1e, h1r, h1c⟩ := install_step w tabId sessionId url host pu now hs hu hcons
  have hcons1 : ∀ r ∈ (applyRulesForTab w tabId sessionId url pu now false).engine,
      r.condition.tabIds.contains tabId = true →
      r.id ∈ (tabEntry (applyRulesForTab w tabId sessionId url pu now false) tabId).ruleIds := by
    rw [h1e]
    intro r hr hc
    rw [applyRulesForTab_eq w tabId sessionId url host pu now hs hu] at hr
    rcases List.mem_append.mp hr with hm | hm
    · exfalso
      obtain ⟨hrw, hnc⟩ := List.mem_filter.mp hm
      have hmem : r.id ∈ (tabEntry w tabId).ruleIds := hcons r hrw hc
      have hnot : r.id ∉ (tabEntry w tabId).ruleIds := by simpa using hnc
      exact hnot hmem
    · rcases List.mem_cons.mp hm with hm1 | hm1
      · subst hm1; simp [cookieRequestRule]
      · rcases List.mem_cons.mp hm1 with hm2 | hm2
        · subst hm2; simp [setCookieStripRule]
        · exact absurd hm2 (List.not_mem_nil r)
  obtain ⟨h2e, h2r, h2c⟩ := install_step (applyRulesForTab w tabId sessionId url pu now false)
    tabId sessionId url host pu now hs hu hcons1
  have hH : buildCookieHeader (applyRulesForTab w tabId sessionId url pu now false).store
      sessionId host now = buildCookieHeader w.store sessionId host now :=
    buildCookieHeader_congr _ _ h1c sessionId host now
  refine ⟨?_, ?_, ?_, ?_, ?_⟩
  · rw [h1e]
    rfl
  · rw [h1r, h1e]
    rfl
  · rw [h2e]
    rfl
  · rw [h2r, h2e]
    rfl
  · rw [h2r, h1r, hH]
    simp [ruleContent, cookieRequestRule, setCookieStripRule]

/-- A world with an empty engine and a fresh store, for the C8 witness. -/
def emptyWorld : World :=
  { store := { sessions := [], tabSessions := [], sessionCookies := [],
               ruleIdCounter := some 1 },
    tabCache := [], engine := [] }

/-- Witness for C8 at `emptyWorld`, tab 1, session "work". -/
theorem applyRulesForTab_idempotent_two_rules_witness :
    ((str "work" == str "default") = false)
    ∧ puA (str "https://a.com/") = some (str "a.com")
    ∧ (tabEntry (applyRulesForTab emptyWorld 1 (str "work") (str "https://a.com/")
        puA 0 false) 1).ruleIds.length = 2 :=
  ⟨by decide, by decide,
   (applyRulesForTab_idempotent_two_rules emptyWorld
      (applyRulesForTab emptyWorld 1 (str "work") (str "https://a.com/") puA 0 false)
      (applyRulesForTab (applyRulesForTab emptyWorld 1 (str "work")
        (str "https://a.com/") puA 0 false) 1 (str "work") (str "https://a.com/") puA 0 false)
      1 (str "work") (str "https://a.com/") (str "a.com") puA 0
      (by decide) (by decide) (by decide) rfl rfl).1⟩

/-! ## C7: the serialized header round-trips through a cookie-pair parser -/

/-- Splitting on the exact two-character separator `"; "`: the claim's
parser splits `buildCookieHeader` output on `"; "`.  (The `"; "` pattern
cannot overlap itself, so this leftmost scan is JS
`String.prototype.split("; ")`.) -/
def splitSemiSpace : Str → List Str
  | [] => [[]]
  | [x] => [[x]]
  | x :: y :: rest =>
    if x = ';' ∧ y = ' ' then [] :: splitSemiSpace rest
    else
      match splitSemiSpace (y :: rest) with
      | [] => [[x]]
      | z :: zs => (x :: z) :: zs

/-- Split one pair at its first `=` (no `=` keeps the whole piece as the
name with an empty value). -/
def splitFirstEq (s : Str) : Str × Str :=
  match jsIndexOf '=' s with
  | some k => (s.take k, s.drop (k + 1))
  | none => (s, [])

/-- The claim's standard cookie-pair parser: split the header on `"; "`,
then each piece at its first `=`; an empty header carries no pairs. -/
def parsePairs (s : Str) : List (Str × Str) :=
  if s.isEmpty then [] else (splitSemiSpace s).map splitFirstEq

theorem jsIndexOf_append_eq (p1 p2 : Str) (h : '=' ∉ p1) :
    jsIndexOf '=' (p1 ++ '=' :: p2) = some p1.length := by
  induction p1 with
  | nil => simp [jsIndexOf]
  | cons x xs ih =>
    have hx : ¬ x = '=' := fun hx => h (by rw [← hx]; exact List.mem_cons_self x xs)
    rw [List.cons_append, jsIndexOf, if_neg hx,
      ih (fun hm => h (List.mem_cons_of_mem _ hm))]
    rfl

theorem splitFirstEq_pair (p1 p2 : Str) (h : '=' ∉ p1) :
    splitFirstEq (p1 ++ '=' :: p2) = (p1, p2) := by
  unfold splitFirstEq
  rw [jsIndexOf_append_eq p1 p2 h]
  dsimp only
  rw [List.take_left, ← List.drop_drop, List.drop_left]
  rfl

theorem splitSemiSpace_no_semi (s : Str) (h : ';' ∉ s) :
    splitSemiSpace s = [s] := by
  induction s with
  | nil => rfl
  | cons x xs ih =>
    cases xs with
    | nil => rfl
    | cons y ys =>
      have hx : ¬(x = ';' ∧ y = ' ') := fun hc =>
        h (by rw [← hc.1]; exact List.mem_cons_self x (y :: ys))
      rw [splitSemiSpace.eq_3, if_neg hx,
        ih (fun hm => h (List.mem_cons_of_mem _ hm))]

theorem splitSemiSpace_sep (t : Str) :
    splitSemiSpace (';' :: ' ' :: t) = [] :: splitSemiSpace t := by
  rw [splitSemiSpace.eq_3, if_pos ⟨rfl, rfl⟩]

theorem splitSemiSpace_append (a t : Str) (h : ';' ∉ a) :
    splitSemiSpace (a ++ ';' :: ' ' :: t) = a :: splitSemiSpace t := by
  induction a with
  | nil => rw [List.nil_append, splitSemiSpace_sep]
  | cons x xs ih =>
    cases xs with
    | nil =>
      rw [List.cons_append, List.nil_append, splitSemiSpace.eq_3,
        if_neg (fun hc => absurd hc.2 (by decide)), splitSemiSpace_sep]
    | cons y ys =>
      have hx : ¬(x = ';' ∧ y = ' ') := fun hc =>
        h (by rw [← hc.1]; exact List.mem_cons_self x (y :: ys))
      have ih2 := ih (fun hm => h (List.mem_cons_of_mem _ hm))
      rw [List.cons_append] at ih2
      rw [List.cons_append, List.cons_append, splitSemiSpace.eq_3, if_neg hx, ih2]

theorem join_pair_ne_empty (p : Str × Str) :
    (p.1 ++ '=' :: p.2).isEmpty = false := by
  cases hp : p.1 with
  | nil => rfl
  | cons x xs => rfl

theorem append_sep_ne_empty (a t : Str) :
    (a ++ ';' :: ' ' :: t).isEmpty = false := by
  cases a <;> rfl

theorem joinSemiSpace_pairs_ne_empty (q : Str × Str) (rest : List (Str × Str)) :
    (joinSemiSpace ((q :: rest).map (fun p => p.1 ++ '=' :: p.2))).isEmpty
      = false := by
  cases rest with
  | nil =>
    rw [List.map_cons, List.map_nil, joinSemiSpace]
    exact join_pair_ne_empty q
  | cons r rest2 =>
    rw [List.map_cons, List.map_cons, joinSemiSpace]
    exact append_sep_ne_empty ..

/-- The core round trip: parsing the `"; "`-joined serialization of pairs
whose names avoid `;` and `=` and whose values avoid `;` recovers exactly
the pairs. -/
theorem parsePairs_joinSemiSpace (l : List (Str × Str))
    (h : ∀ p ∈ l, ';' ∉ p.1 ∧ '=' ∉ p.1 ∧ ';' ∉ p.2) :
    parsePairs (joinSemiSpace (l.map (fun p => p.1 ++ '=' :: p.2))) = l := by
  induction l with
  | nil => rfl
  | cons p rest ih =>
    obtain ⟨h1, h2, h3⟩ := h p (List.mem_cons_self p rest)
    have hsemi : ';' ∉ p.1 ++ '=' :: p.2 := by
      intro hm
      rcases List.mem_append.mp hm with hm1 | hm1
      · exact h1 hm1
      · rcases List.mem_cons.mp hm1 with hm2 | hm2
        · exact absurd hm2 (by decide)
        · exact h3 hm2
    cases rest with
    | nil =>
      unfold parsePairs
      rw [List.map_cons, List.map_nil, joinSemiSpace,
        join_pair_ne_empty p, if_neg (by decide),
        splitSemiSpace_no_semi _ hsemi, List.map_cons, List.map_nil,
        splitFirstEq_pair p.1 p.2 h2]
    | cons q rest2 =>
      have hrest : ∀ p' ∈ q :: rest2, ';' ∉ p'.1 ∧ '=' ∉ p'.1 ∧ ';' ∉ p'.2 :=
        fun p' hp' => h p' (List.mem_cons_of_mem _ hp')
      have hih := ih hrest
      unfold parsePairs at hih
      rw [joinSemiSpace_pairs_ne_empty q rest2, if_neg (by decide),
        List.map_cons] at hih
      unfold parsePairs
      rw [List.map_cons, List.map_cons, joinSemiSpace, append_sep_ne_empty,
        if_neg (by decide), splitSemiSpace_append _ _ hsemi, List.map_cons,
        splitFirstEq_pair p.1 p.2 h2, hih]

theorem splitOnChar_ne_nil (c : Char) (s : Str) : splitOnChar c s ≠ [] := by
  cases s with
  | nil => simp [splitOnChar]
  | cons x xs =>
    rw [splitOnChar.eq_2]
    by_cases hx : x = c
    · rw [if_pos hx]; simp
    · rw [if_neg hx]
      rcases hr : splitOnChar c xs with _ | ⟨y, ys⟩ <;> simp

theorem splitOnChar_pieces_not_mem (c : Char) (s : Str) :
    ∀ piece ∈ splitOnChar c s, c ∉ piece := by
  induction s with
  | nil =>
    intro piece hp
    simp only [splitOnChar] at hp
    rcases List.mem_cons.mp hp with h1 | h1
    · subst h1; exact List.not_mem_nil c
    · exact absurd h1 (List.not_mem_nil piece)
  | cons x xs ih =>
    intro piece hp
    by_cases hx : x = c
    · rw [splitOnChar.eq_2, if_pos hx] at hp
      rcases List.mem_cons.mp hp with h1 | h1
      · subst h1; exact List.not_mem_nil c
      · exact ih piece h1
    · rw [splitOnChar.eq_2, if_neg hx] at hp
      rcases hr : splitOnChar c xs with _ | ⟨y, ys⟩
      · rw [hr] at hp
        rcases List.mem_cons.mp hp with h1 | h1
        · subst h1
          intro hc
          rcases List.mem_cons.mp hc with h2 | h2
          · exact hx h2.symm
          · exact absurd h2 (List.not_mem_nil c)
        · exact absurd h1 (List.not_mem_nil piece)
      · rw [hr] at hp
        rcases List.mem_cons.mp hp with h1 | h1
        · subst h1
          intro hc
          rcases List.mem_cons.mp hc with h2 | h2
          · exact hx h2.symm
          · exact ih y (by rw [hr]; exact List.mem_cons_self y ys) h2
        · exact ih piece (by rw [hr]; exact List.mem_cons_of_mem y h1)

theorem mem_of_mem_trimWs {a : Char} {s : Str} (h : a ∈ trimWs s) : a ∈ s := by
  unfold trimWs at h
  have h1 := List.mem_reverse.mp h
  have h2 := (List.dropWhile_sublist _).mem h1
  have h3 := List.mem_reverse.mp h2
  exact (List.dropWhile_sublist _).mem h3

theorem not_mem_take_jsIndexOf (c : Char) (s : Str) (k : Nat)
    (h : jsIndexOf c s = some k) : c ∉ s.take k := by
  induction s generalizing k with
  | nil => simp [jsIndexOf] at h
  | cons x xs ih =>
    rw [jsIndexOf] at h
    by_cases hx : x = c
    · rw [if_pos hx] at h
      injection h with h
      subst h
      simp
    · rw [if_neg hx] at h
      rcases hj : jsIndexOf c xs with _ | j
      · rw [hj] at h; simp at h
      · rw [hj] at h
        simp at h
        subst h
        rw [List.take_succ_cons]
        intro hc
        rcases List.mem_cons.mp hc with h2 | h2
        · exact hx h2.symm
        · exact ih j hj h2

/-- C7: (a) splitting `buildCookieHeader`'s output on `"; "` and each pair
at its first `=` reproduces exactly the surviving records' name/value
pairs and no others — under the well-formedness condition that their names
avoid `;` and `=` and their values avoid `;`; (b) when no record survives
the result is the empty string; (c) the well-formedness condition is an
invariant of the program: every record `parseSetCookie` produces satisfies
it, so it holds of every record the store can receive. -/
theorem buildCookieHeader_roundtrip
    (st : StorageState) (sess dom : Str) (now : Int)
    (hwf : ∀ c ∈ survivors st sess dom now,
      ';' ∉ c.name ∧ '=' ∉ c.name ∧ ';' ∉ c.value) :
    parsePairs (buildCookieHeader st sess dom now)
      = (survivors st sess dom now).map (fun c => (c.name, c.value))
    ∧ (survivors st sess dom now = [] → buildCookieHeader st sess dom now = [])
    ∧ ∀ (pu : Str → Option Str) (pd : Str → JSNum) (T : Int) (hdr url : Str)
        (c : CookieRecord), parseSetCookie pu pd T hdr url = some c →
        ';' ∉ c.name ∧ '=' ∉ c.name ∧ ';' ∉ c.value := by
  refine ⟨?_, ?_, ?_⟩
  · have hwf' : ∀ p ∈ (survivors st sess dom now).map (fun c => (c.name, c.value)),
        ';' ∉ p.1 ∧ '=' ∉ p.1 ∧ ';' ∉ p.2 := by
      intro p hp
      obtain ⟨c, hc, hpc⟩ := List.mem_map.mp hp
      rw [← hpc]
      exact hwf c hc
    have hmain := parsePairs_joinSemiSpace _ hwf'
    rw [List.map_map] at hmain
    exact hmain
  · intro h
    unfold buildCookieHeader
    rw [h]
    rfl
  · intro pu pd T hdr url c hp
    rcases hu : pu url with _ | host
    · simp [parseSetCookie, hu] at hp
    · simp only [parseSetCookie, hu, Option.some.injEq] at hp
      have hnv : ';' ∉ ((splitOnChar ';' hdr).map trimWs).headD [] := by
        rcases hsp : splitOnChar ';' hdr with _ | ⟨p0, ps⟩
        · exact absurd hsp (splitOnChar_ne_nil ';' hdr)
        · rw [List.map_cons, List.headD_cons]
          intro hm
          exact splitOnChar_pieces_not_mem ';' hdr p0
            (by rw [hsp]; exact List.mem_cons_self p0 ps) (mem_of_mem_trimWs hm)
      have hname : c.name
          = match jsIndexOf '=' (((splitOnChar ';' hdr).map trimWs).headD []) with
            | some k => (((splitOnChar ';' hdr).map trimWs).headD []).take k
            | none => [] := by
        rw [← hp, foldl_applyAttr_name]
      have hvalue : c.value
          = match jsIndexOf '=' (((splitOnChar ';' hdr).map trimWs).headD []) with
            | some k => (((splitOnChar ';' hdr).map trimWs).headD []).drop (k + 1)
            | none => ((splitOnChar ';' hdr).map trimWs).headD [] := by
        rw [← hp, foldl_applyAttr_value]
      rcases hidx : jsIndexOf '=' (((splitOnChar ';' hdr).map trimWs).headD [])
        with _ | k
      · rw [hidx] at hname hvalue
        dsimp only at hname hvalue
        rw [hname, hvalue]
        exact ⟨List.not_mem_nil ';', List.not_mem_nil '=', hnv⟩
      · rw [hidx] at hname hvalue
        dsimp only at hname hvalue
        rw [hname, hvalue]
        refine ⟨?_, ?_, ?_⟩
        · intro hm; exact hnv (List.take_subset _ _ hm)
        · exact not_mem_take_jsIndexOf '=' _ k hidx
        · intro hm; exact hnv (List.drop_subset _ _ hm)

/-- A live session cookie for the C7 witness. -/
def liveCookie : CookieRecord :=
  { name := str "sid", value := str "abc", domain := str "a.com", path := str "/",
    secure := false, httpOnly := false, sameSite := str "Lax",
    expirationDate := none }

/-- A store holding `liveCookie` under session `"s"`. -/
def storeLive : StorageState :=
  { sessions := [], tabSessions := [],
    sessionCookies := [(str "s", [(str "a.com", [(str "sid|/", liveCookie)])])],
    ruleIdCounter := some 1 }

/-- Witness for C7 at the concrete store `storeLive`. -/
theorem buildCookieHeader_roundtrip_witness :
    (∀ c ∈ survivors storeLive (str "s") (str "a.com") 0,
      ';' ∉ c.name ∧ '=' ∉ c.name ∧ ';' ∉ c.value)
    ∧ parsePairs (buildCookieHeader storeLive (str "s") (str "a.com") 0)
      = (survivors storeLive (str "s") (str "a.com") 0).map
          (fun c => (c.name, c.value)) :=
  ⟨by decide,
   (buildCookieHeader_roundtrip storeLive (str "s") (str "a.com") 0 (by decide)).1⟩

end ChromeMultiSession
